import Mathlib

/-!
Verification of the realtime conversation component of the Echoes-of-time
application.  The definitions below are a shallow embedding of the state
held in the React refs of `src/components/ConversationView.tsx` and of the
handlers that mutate it (`onmessage`, `onerror`, `startConversation`,
`endConversation`, `stopAudioProcessing`, `animateMouth`), together with
the mouth-coordinate acceptance logic of `handleStartJourney` in the app
root component.  Times, durations and loudness values are modelled as
rationals; browser objects (audio nodes, media streams, the remote
session) are modelled by the presence/absence information the code
actually branches on.
-/

namespace Echoes

/-- Speaker tag of a transcript entry (the `speaker: 'user' | 'model'`
field of `TranscriptEntry`). -/
inductive Speaker
  | user
  | model
  deriving DecidableEq

/-- One committed transcript entry (`{ speaker, text }`), appended to the
`transcript` state on `turnComplete`. -/
structure TranscriptEntry where
  speaker : Speaker
  text : String
  deriving DecidableEq

/-- One scheduled playback source (`AudioBufferSourceNode` in
`audioSourcesRef`), identified by a serial id and carrying the start time
passed to `sourceNode.start` and the decoded buffer's duration. -/
structure Source where
  id : ℕ
  startTime : ℚ
  duration : ℚ
  deriving DecidableEq

/-- The component's `status` state: `'idle' | 'connecting' | 'live' | 'error'`. -/
inductive Status
  | idle
  | connecting
  | live
  | error
  deriving DecidableEq

/-- The mutable state of one `ConversationView` instance: the `status`
state plus the refs of the component.  Browser-object refs are modelled by
Booleans recording whether the ref currently holds a (non-null) object;
`inputCtxOpen`/`outputCtxOpen` additionally record whether the audio
contexts are still open (not closed), while `outputCtxSet`/`analyserSet`
record mere non-nullness of `outputAudioContextRef`/`analyserNodeRef`,
which is what the `onmessage` audio guard tests. -/
structure ConvState where
  status : Status
  sessionOpen : Bool
  micStream : Bool
  scriptProcessor : Bool
  mediaStreamSource : Bool
  inputCtxOpen : Bool
  outputCtxOpen : Bool
  outputCtxSet : Bool
  analyserSet : Bool
  animationRunning : Bool
  nextStartTime : ℚ
  audioSources : List Source
  activeAudioSources : ℕ
  currentInput : String
  currentOutput : String
  transcript : List TranscriptEntry
  nextId : ℕ
  deriving DecidableEq

/-- One inbound `LiveServerMessage` as dispatched by `onmessage`:
`audioDuration = some d` models a message whose
`serverContent.modelTurn.parts[0].inlineData.data` is present and whose
decoded buffer has duration `d`; the other fields model
`serverContent.interrupted`, `serverContent.inputTranscription.text`,
`serverContent.outputTranscription.text` and `serverContent.turnComplete`. -/
structure ServerMessage where
  audioDuration : Option ℚ
  interrupted : Bool
  inputTranscription : Option String
  outputTranscription : Option String
  turnComplete : Bool

/-- The audio-chunk branch of `onmessage` (guarded by
`audioData && outputAudioContextRef.current && analyserNodeRef.current`):
starts the animation loop on the first chunk when mouth coordinates
exist, clamps `nextStartTimeRef` up to the current output-clock time
`now`, schedules a new source at that time, increments the active-source
count, adds the source to the active set, and advances `nextStartTimeRef`
by the decoded buffer's duration. -/
def processAudioChunk (hasCoords : Bool) (now dur : ℚ) (s : ConvState) : ConvState :=
  if s.outputCtxSet && s.analyserSet then
    let nst := max s.nextStartTime now
    { s with
        animationRunning := s.animationRunning || hasCoords
        nextStartTime := nst + dur
        audioSources := s.audioSources ++ [⟨s.nextId, nst, dur⟩]
        activeAudioSources := s.activeAudioSources + 1
        nextId := s.nextId + 1 }
  else s

/-- The `serverContent.interrupted` branch of `onmessage`: stops every
source in `audioSourcesRef`, clears the set, sets the active-source count
to 0, resets `nextStartTimeRef` to 0 and stops the animation loop. -/
def processInterrupted (s : ConvState) : ConvState :=
  { s with
      audioSources := []
      activeAudioSources := 0
      nextStartTime := 0
      animationRunning := false }

/-- The `serverContent.turnComplete` branch of `onmessage`: trims both
pending transcription buffers, appends a `user` entry for a non-empty
input buffer and then a `model` entry for a non-empty output buffer, and
resets both buffers to the empty string. -/
def processTurnComplete (s : ConvState) : ConvState :=
  let fullInput := s.currentInput.trim
  let fullOutput := s.currentOutput.trim
  let newEntries : List TranscriptEntry :=
    (if fullInput = "" then [] else [⟨Speaker.user, fullInput⟩]) ++
      (if fullOutput = "" then [] else [⟨Speaker.model, fullOutput⟩])
  { s with
      transcript := s.transcript ++ newEntries
      currentInput := ""
      currentOutput := "" }

/-- The `onmessage` callback: processes, in source order, the optional
audio chunk, the `interrupted` flag, the input- and output-transcription
fragments (appended to the running buffers), and the `turnComplete` flag.
`hasCoords` is the `mouthCoordinates` prop captured by the callback and
`now` is `outputAudioContextRef.current.currentTime` when the message is
handled. -/
def onmessage (hasCoords : Bool) (now : ℚ) (msg : ServerMessage) (s : ConvState) : ConvState :=
  let s1 := match msg.audioDuration with
    | some dur => processAudioChunk hasCoords now dur s
    | none => s
  let s2 := if msg.interrupted then processInterrupted s1 else s1
  let s3 := match msg.inputTranscription with
    | some t => { s2 with currentInput := s2.currentInput ++ t }
    | none => s2
  let s4 := match msg.outputTranscription with
    | some t => { s3 with currentOutput := s3.currentOutput ++ t }
    | none => s3
  if msg.turnComplete then processTurnComplete s4 else s4

/-- Process a whole arrival sequence of audio chunks, each given as a pair
of the output-clock reading at processing time and the decoded buffer's
duration. -/
def runChunks (hasCoords : Bool) (s : ConvState) : List (ℚ × ℚ) → ConvState
  | [] => s
  | (now, dur) :: rest => runChunks hasCoords (processAudioChunk hasCoords now dur s) rest

/-- Process a whole sequence of server messages, each paired with the
output-clock reading at its processing time. -/
def runMessages (hasCoords : Bool) (s : ConvState) : List (ℚ × ServerMessage) → ConvState
  | [] => s
  | (now, msg) :: rest => runMessages hasCoords (onmessage hasCoords now msg s) rest

/-- The scheduled start times of the sources in the active set, in
insertion order. -/
def startTimes (s : ConvState) : List ℚ :=
  s.audioSources.map Source.startTime

/-- `stopAudioProcessing`: disconnects and nulls the script processor and
media-stream source (when both are present), stops the microphone tracks
and nulls the stream ref, and closes both audio contexts when not already
closed.  The context refs themselves are left non-null, as in the source. -/
def stopAudioProcessing (s : ConvState) : ConvState :=
  let s1 := if s.scriptProcessor && s.mediaStreamSource then
      { s with scriptProcessor := false, mediaStreamSource := false }
    else s
  let s2 := if s1.micStream then { s1 with micStream := false } else s1
  { s2 with inputCtxOpen := false, outputCtxOpen := false }

/-- `endConversation`: sets status to idle, closes the remote session and
nulls its ref when present, runs `stopAudioProcessing`, cancels the
animation frame when one is scheduled, stops every active source and
clears the active set.  (The `activeAudioSources` counter is not reset
here; only the asynchronous `ended` events adjust it.) -/
def endConversation (s : ConvState) : ConvState :=
  let s1 : ConvState := { s with status := Status.idle }
  let s2 := if s1.sessionOpen then { s1 with sessionOpen := false } else s1
  let s3 := stopAudioProcessing s2
  let s4 := if s3.animationRunning then { s3 with animationRunning := false } else s3
  { s4 with audioSources := [] }

/-- The `onerror` session callback: logs, sets status to `'error'` and
runs `stopAudioProcessing`.  Nothing else is touched. -/
def onerror (s : ConvState) : ConvState :=
  stopAudioProcessing { s with status := Status.error }

/-- The `onclose` session callback: runs `stopAudioProcessing` only. -/
def onclose (s : ConvState) : ConvState :=
  stopAudioProcessing s

/-- How far `startConversation` gets before its `try` block either throws
or completes: `getUserMedia` rejecting (permission denied), a later step
throwing after the microphone stream was stored (modelled at the remote
client construction, after both audio contexts and the analyser were set
up), or full success. -/
inductive StartOutcome
  | permissionDenied
  | failureAfterMic
  | success

/-- `startConversation`: sets status to `'connecting'`, clears the
transcript, then runs the `try` block as far as `outcome` allows.  On
success the microphone stream, both audio contexts and the analyser are
stored, `nextStartTimeRef` is reset to 0 and the session promise is
stored.  The `catch` block only sets status to `'error'`; it releases
nothing. -/
def startConversation (outcome : StartOutcome) (s : ConvState) : ConvState :=
  let s0 : ConvState := { s with status := Status.connecting, transcript := [] }
  match outcome with
  | StartOutcome.permissionDenied => { s0 with status := Status.error }
  | StartOutcome.failureAfterMic =>
      { s0 with
          micStream := true
          inputCtxOpen := true
          outputCtxOpen := true
          outputCtxSet := true
          analyserSet := true
          nextStartTime := 0
          status := Status.error }
  | StartOutcome.success =>
      { s0 with
          micStream := true
          inputCtxOpen := true
          outputCtxOpen := true
          outputCtxSet := true
          analyserSet := true
          nextStartTime := 0
          sessionOpen := true }

/-- The sequence of `setStatus` calls made while `startConversation`
itself runs, per outcome: `'connecting'` first, `'error'` in the `catch`
block on either failure.  (`'live'` is set only by the `onopen` callback
of a successfully opened session, later.) -/
def startStatusTrace (outcome : StartOutcome) : List Status :=
  match outcome with
  | StartOutcome.permissionDenied => [Status.connecting, Status.error]
  | StartOutcome.failureAfterMic => [Status.connecting, Status.error]
  | StartOutcome.success => [Status.connecting]

/-- The component's initial state: status `'idle'`, every ref null, clock
offset 0, empty set, zero count, empty buffers and transcript. -/
def initState : ConvState where
  status := Status.idle
  sessionOpen := false
  micStream := false
  scriptProcessor := false
  mediaStreamSource := false
  inputCtxOpen := false
  outputCtxOpen := false
  outputCtxSet := false
  analyserSet := false
  animationRunning := false
  nextStartTime := 0
  audioSources := []
  activeAudioSources := 0
  currentInput := ""
  currentOutput := ""
  transcript := []
  nextId := 0

/-! ### The loudness-driven animator (`animateMouth`) -/

/-- The noise-floor threshold `volumeThreshold = 0.02` of `animateMouth`. -/
def volumeThreshold : ℚ := 1 / 50

/-- The exponential smoothing factor `smoothingFactor = 0.25`. -/
def smoothingFactor : ℚ := 1 / 4

/-- The mean of the squared normalized samples of one analyser window:
each byte `a` (0..255) is normalized to `a / 128 - 1` and squared; the
frame's RMS loudness is the square root of this value. -/
def meanSquare (data : List ℤ) : ℚ :=
  ((data.map fun a : ℤ => ((a : ℚ) / 128 - 1) ^ 2).sum) / (data.length : ℚ)

/-- The post-noise-floor loudness:
`effectiveVolume = rms > volumeThreshold ? rms : 0`. -/
def effectiveVolume (rms : ℚ) : ℚ :=
  if volumeThreshold < rms then rms else 0

/-- One update of `smoothedVolumeRef`:
`smoothed * (1 - smoothingFactor) + effectiveVolume * smoothingFactor`. -/
def smoothStep (smoothed rms : ℚ) : ℚ :=
  smoothed * (1 - smoothingFactor) + effectiveVolume rms * smoothingFactor

/-- What one animation frame computes and draws: the updated smoothed
volume, the jaw displacement `mouthOpenness` in canvas pixels, and
whether the unmodified static portrait was drawn (the code composites the
displaced jaw only when `mouthOpenness > 1`). -/
structure FrameResult where
  smoothed : ℚ
  mouthOpenness : ℚ
  staticDrawn : Bool
  deriving DecidableEq

/-- One pass of the `animateMouth` loop body, given the smoothed volume
entering the frame, the frame's RMS loudness, and the mouth region's
height on the canvas `dHeight = canvas.height * (coords.height / 100)`:
`maxOpenness = dHeight * 0.7` and
`mouthOpenness = smoothed * maxOpenness * 8`. -/
def animateMouthFrame (smoothedIn rms dHeight : ℚ) : FrameResult :=
  let sm := smoothStep smoothedIn rms
  let maxOpenness := dHeight * (7 / 10)
  let op := sm * maxOpenness * 8
  { smoothed := sm
    mouthOpenness := op
    staticDrawn := !decide (1 < op) }

/-- The smoothed volume after a run of frames with the given RMS
loudness values, starting from the initial `smoothedVolumeRef` value 0. -/
def runSmoothing (rmss : List ℚ) : ℚ :=
  rmss.foldl smoothStep 0

/-! ### Mouth-coordinate acceptance (`handleStartJourney`) -/

/-- The mouth bounding box `{x, y, width, height}` (percentages of the
image dimensions). -/
structure MouthCoordinates where
  x : ℚ
  y : ℚ
  width : ℚ
  height : ℚ
  deriving DecidableEq

/-- What `handleStartJourney` stores in `mouthCoordinates` from the
localization response: `none` when parsing threw (the `catch` stores
null); for a parsed object, the coordinates are stored only when the
truthiness check `coords.x && coords.y && coords.width && coords.height`
passes, i.e. when no field is zero — otherwise the state keeps its
initial null. -/
def acceptMouthCoords (parsed : Option MouthCoordinates) : Option MouthCoordinates :=
  match parsed with
  | none => none
  | some c =>
      if c.x ≠ 0 ∧ c.y ≠ 0 ∧ c.width ≠ 0 ∧ c.height ≠ 0 then some c else none

/-! ### Scheduler invariant and helper lemmas -/

/-- Invariant of the playback scheduler: recorded start times are
non-decreasing in insertion order, and every recorded start time is at
most the next available start time. -/
def SchedInv (s : ConvState) : Prop :=
  List.Chain' (· ≤ ·) (startTimes s) ∧
    ∀ src ∈ s.audioSources, src.startTime ≤ s.nextStartTime

lemma schedInv_processAudioChunk (hc : Bool) (now dur : ℚ) (s : ConvState)
    (hdur : 0 ≤ dur) (hinv : SchedInv s) :
    SchedInv (processAudioChunk hc now dur s) := by
  obtain ⟨hchain, hle⟩ := hinv
  unfold processAudioChunk
  split
  · constructor
    · simp only [startTimes, List.map_append, List.map_cons, List.map_nil]
      refine List.Chain'.append hchain (List.chain'_singleton _) ?_
      intro x hx y hy
      simp only [List.head?_cons, Option.mem_def, Option.some.injEq] at hy
      subst hy
      have hx' : x ∈ startTimes s := List.mem_of_mem_getLast? hx
      obtain ⟨src, hsrc, rfl⟩ := List.mem_map.1 hx'
      exact le_trans (hle src hsrc) (le_max_left _ _)
    · intro src hsrc
      simp only [List.mem_append, List.mem_singleton] at hsrc
      show src.startTime ≤ max s.nextStartTime now + dur
      rcases hsrc with h | h
      · have h2 := le_max_left s.nextStartTime now
        have h3 := hle src h
        linarith
      · subst h
        show max s.nextStartTime now ≤ max s.nextStartTime now + dur
        linarith
  · exact ⟨hchain, hle⟩

lemma schedInv_runChunks (hc : Bool) (chunks : List (ℚ × ℚ)) (s : ConvState)
    (hdur : ∀ c ∈ chunks, 0 ≤ c.2) (hinv : SchedInv s) :
    SchedInv (runChunks hc s chunks) := by
  induction chunks generalizing s with
  | nil => exact hinv
  | cons c rest ih =>
      obtain ⟨now, dur⟩ := c
      exact ih _ (fun x hx => hdur x (List.mem_cons_of_mem _ hx))
        (schedInv_processAudioChunk hc now dur s
          (hdur _ (List.mem_cons_self _ _)) hinv)

/-- The state right after a successful `startConversation` from the
initial state. -/
def liveState : ConvState :=
  startConversation StartOutcome.success initState

/-! ### Claims -/

/-- C1: for every inbound audio chunk, the new source is scheduled at
`max(nextAvailableStart, currentClockTime)` and `nextAvailableStart` then
advances by exactly the decoded buffer's duration; a chunk arriving while
the previous one is still playing (clock time strictly before the
previous computed end `nextStartTime`) starts exactly at that end time;
and over any arrival sequence of chunks with nonnegative durations the
scheduled start times are non-decreasing. -/
theorem C1_gapless_scheduling :
    (∀ (hc : Bool) (now dur : ℚ) (s : ConvState),
        s.outputCtxSet = true → s.analyserSet = true →
        (processAudioChunk hc now dur s).audioSources
            = s.audioSources ++ [⟨s.nextId, max s.nextStartTime now, dur⟩] ∧
          (processAudioChunk hc now dur s).nextStartTime
            = max s.nextStartTime now + dur) ∧
      (∀ (hc : Bool) (now dur : ℚ) (s : ConvState),
        s.outputCtxSet = true → s.analyserSet = true → now < s.nextStartTime →
        (processAudioChunk hc now dur s).audioSources
            = s.audioSources ++ [⟨s.nextId, s.nextStartTime, dur⟩]) ∧
      ∀ (hc : Bool) (s : ConvState) (chunks : List (ℚ × ℚ)),
        (∀ c ∈ chunks, 0 ≤ c.2) → SchedInv s →
        List.Chain' (· ≤ ·) (startTimes (runChunks hc s chunks)) := by
  refine ⟨?_, ?_, ?_⟩
  · intro hc now dur s h1 h2
    constructor <;> simp [processAudioChunk, h1, h2]
  · intro hc now dur s h1 h2 hlt
    simp [processAudioChunk, h1, h2, max_eq_left (le_of_lt hlt)]
  · intro hc s chunks hdur hinv
    exact (schedInv_runChunks hc chunks s hdur hinv).1

/-- Witness for C1: a first chunk of duration 3 processed at clock time 2
starts at `max 0 2`; a second chunk arriving at clock time 1 (before the
first one's computed end 5) starts exactly at that end; and the resulting
start-time list is non-decreasing. -/
theorem C1_gapless_scheduling_witness :
    ((processAudioChunk true 2 3 liveState).audioSources
        = liveState.audioSources
            ++ [⟨liveState.nextId, max liveState.nextStartTime 2, 3⟩] ∧
      (processAudioChunk true 2 3 liveState).nextStartTime
        = max liveState.nextStartTime 2 + 3) ∧
      ((processAudioChunk true 1 3 (processAudioChunk true 2 3 liveState)).audioSources
        = (processAudioChunk true 2 3 liveState).audioSources
            ++ [⟨(processAudioChunk true 2 3 liveState).nextId,
                  (processAudioChunk true 2 3 liveState).nextStartTime, 3⟩]) ∧
      List.Chain' (· ≤ ·) (startTimes (runChunks true liveState [(2, 3), (1, 3)])) :=
  ⟨C1_gapless_scheduling.1 true 2 3 liveState (by decide) (by decide),
    C1_gapless_scheduling.2.1 true 1 3 (processAudioChunk true 2 3 liveState)
      (by decide) (by decide)
      (by norm_num [processAudioChunk, liveState, startConversation, initState, max_def]),
    C1_gapless_scheduling.2.2 true liveState [(2, 3), (1, 3)]
      (by decide)
      (by refine ⟨?_, ?_⟩ <;>
        simp [SchedInv, startTimes, liveState, startConversation, initState])⟩

/-- C2: processing any server message with the `interrupted` flag set
leaves the active set empty, the active-source count 0 and
`nextStartTime` reset to 0, whatever was active before. -/
theorem C2_interrupted_clears_playback
    (hc : Bool) (now : ℚ) (msg : ServerMessage) (s : ConvState)
    (hint : msg.interrupted = true) :
    (onmessage hc now msg s).audioSources = [] ∧
      (onmessage hc now msg s).activeAudioSources = 0 ∧
      (onmessage hc now msg s).nextStartTime = 0 := by
  rcases msg with ⟨ad, intr, it, ot, tc⟩
  subst hint
  cases ad <;> cases it <;> cases ot <;> cases tc <;>
    simp [onmessage, processAudioChunk, processInterrupted, processTurnComplete]

/-- Witness for C2: an interrupted message (also carrying audio, text
fragments and a turn-complete flag) processed in a state with one active
scheduled source leaves zero sources, count 0 and next start time 0. -/
theorem C2_interrupted_clears_playback_witness :
    (onmessage true 0 ⟨some 1, true, some " hi", some " there", true⟩
        (processAudioChunk true 2 3 liveState)).audioSources = [] ∧
      (onmessage true 0 ⟨some 1, true, some " hi", some " there", true⟩
        (processAudioChunk true 2 3 liveState)).activeAudioSources = 0 ∧
      (onmessage true 0 ⟨some 1, true, some " hi", some " there", true⟩
        (processAudioChunk true 2 3 liveState)).nextStartTime = 0 :=
  C2_interrupted_clears_playback true 0 _ (processAudioChunk true 2 3 liveState) rfl

/-- C3: on any message with the `turnComplete` flag, each pending buffer
(including a fragment carried by the same message, appended in arrival
order) is trimmed and, when non-empty, appended as exactly one transcript
entry — the `user` entry before the `model` entry — after which both
buffers are reset to empty; and transcription fragments are accumulated
by plain concatenation in arrival order. -/
theorem C3_turn_complete_transcript :
    (∀ (hc : Bool) (now : ℚ) (msg : ServerMessage) (s : ConvState),
        msg.turnComplete = true →
        (onmessage hc now msg s).transcript
            = s.transcript
                ++ (if (s.currentInput ++ msg.inputTranscription.getD "").trim = ""
                    then []
                    else [⟨Speaker.user,
                            (s.currentInput ++ msg.inputTranscription.getD "").trim⟩])
                ++ (if (s.currentOutput ++ msg.outputTranscription.getD "").trim = ""
                    then []
                    else [⟨Speaker.model,
                            (s.currentOutput ++ msg.outputTranscription.getD "").trim⟩]) ∧
          (onmessage hc now msg s).currentInput = "" ∧
          (onmessage hc now msg s).currentOutput = "") ∧
      ∀ (hc : Bool) (now : ℚ) (s : ConvState) (frag : String),
        (onmessage hc now ⟨none, false, some frag, none, false⟩ s).currentInput
            = s.currentInput ++ frag ∧
          (onmessage hc now ⟨none, false, none, some frag, false⟩ s).currentOutput
            = s.currentOutput ++ frag := by
  constructor
  · intro hc now msg s htc
    rcases msg with ⟨ad, intr, it, ot, tc⟩
    subst htc
    cases ad <;> cases intr <;> cases it <;> cases ot <;>
      simp [onmessage, processAudioChunk, processInterrupted, processTurnComplete] <;>
      split <;> simp
  · intro hc now s frag
    constructor <;> simp [onmessage]

/-- Witness for C3: a turn-complete message carrying the final fragments
of both buffers appends the `user` entry and then the `model` entry and
clears both buffers; and fragment accumulation is concatenation. -/
theorem C3_turn_complete_transcript_witness :
    ((onmessage false 0 ⟨none, false, some "lo ", some "swer ", true⟩
        { initState with currentInput := " hel", currentOutput := " an" }).transcript
          = initState.transcript
              ++ (if (" hel" ++ (some "lo ").getD "").trim = ""
                  then []
                  else [⟨Speaker.user, (" hel" ++ (some "lo ").getD "").trim⟩])
              ++ (if (" an" ++ (some "swer ").getD "").trim = ""
                  then []
                  else [⟨Speaker.model, (" an" ++ (some "swer ").getD "").trim⟩]) ∧
      (onmessage false 0 ⟨none, false, some "lo ", some "swer ", true⟩
        { initState with currentInput := " hel", currentOutput := " an" }).currentInput
          = "" ∧
      (onmessage false 0 ⟨none, false, some "lo ", some "swer ", true⟩
        { initState with currentInput := " hel", currentOutput := " an" }).currentOutput
          = "") ∧
      (onmessage false 0 ⟨none, false, some "abc", none, false⟩ initState).currentInput
          = initState.currentInput ++ "abc" ∧
      (onmessage false 0 ⟨none, false, none, some "abc", false⟩ initState).currentOutput
          = initState.currentOutput ++ "abc" :=
  ⟨C3_turn_complete_transcript.1 false 0 _
      { initState with currentInput := " hel", currentOutput := " an" } rfl,
    C3_turn_complete_transcript.2 false 0 initState "abc"⟩

/-- A mid-session state with one scheduled source, reached from the
initial state by a successful start followed by one audio-chunk message:
session open, microphone held, animation loop running, one active source. -/
def busyState : ConvState :=
  onmessage true 0 ⟨some 1, false, none, none, false⟩ liveState

/-- C4 counterexample: in a live state with one active source, the
`onerror` callback leaves the remote session open, the active set
non-empty and the animation loop running — it does not perform the full
teardown that `endConversation` performs. -/
theorem C4_counterexample :
    busyState.sessionOpen = true ∧
      busyState.audioSources ≠ [] ∧
      busyState.animationRunning = true ∧
      ¬((onerror busyState).sessionOpen = false ∧
          (onerror busyState).audioSources = [] ∧
          (onerror busyState).animationRunning = false) := by
  refine ⟨rfl, by decide, rfl, ?_⟩
  intro h
  exact absurd h.1 (by decide)

/-- C4 (amended): on a transport error `onerror` only sets the status to
`'error'` and releases the microphone stream and the audio contexts; it
leaves the remote session, the active playback sources, the
active-source count and the animation loop untouched.  Full teardown —
session closed, animation cancelled, active set cleared — is performed
only by `endConversation`. -/
theorem C4_error_partial_teardown (s : ConvState) :
    (onerror s).status = Status.error ∧
      (onerror s).micStream = false ∧
      (onerror s).inputCtxOpen = false ∧
      (onerror s).outputCtxOpen = false ∧
      (onerror s).sessionOpen = s.sessionOpen ∧
      (onerror s).audioSources = s.audioSources ∧
      (onerror s).activeAudioSources = s.activeAudioSources ∧
      (onerror s).animationRunning = s.animationRunning ∧
      (endConversation s).sessionOpen = false ∧
      (endConversation s).micStream = false ∧
      (endConversation s).animationRunning = false ∧
      (endConversation s).audioSources = [] ∧
      (endConversation s).inputCtxOpen = false ∧
      (endConversation s).outputCtxOpen = false := by
  obtain ⟨st, so, mi, sp, ms, ic, oc, ocs, ans, ar, nst, srcs, aas, ci, co, tr, ni⟩ := s
  cases sp <;> cases ms <;> cases mi <;> cases so <;> cases ar <;>
    simp [onerror, endConversation, stopAudioProcessing]

/-- C5 counterexample: when a step of `startConversation` throws after
the microphone was granted, the status does reach `'error'` but the
microphone stream is still retained, contradicting the claim that no
stream remains on any start failure. -/
theorem C5_counterexample :
    (startConversation StartOutcome.failureAfterMic initState).status = Status.error ∧
      (startConversation StartOutcome.failureAfterMic initState).micStream = true := by
  exact ⟨rfl, rfl⟩

/-- C5 (amended): a failed start reaches `'error'` without ever setting
`'live'` in either failure mode; when microphone permission is denied no
stream was acquired so none is retained; but when a later step throws
after the microphone was granted, the `catch` block only sets the status
and the microphone stream remains retained. -/
theorem C5_start_failure_states (s : ConvState) :
    (startConversation StartOutcome.permissionDenied s).status = Status.error ∧
      (startConversation StartOutcome.permissionDenied s).micStream = s.micStream ∧
      Status.live ∉ startStatusTrace StartOutcome.permissionDenied ∧
      Status.live ∉ startStatusTrace StartOutcome.failureAfterMic ∧
      (startConversation StartOutcome.failureAfterMic s).status = Status.error ∧
      (startConversation StartOutcome.failureAfterMic s).micStream = true := by
  exact ⟨rfl, rfl, by decide, by decide, rfl, rfl⟩

/-! ### Animator lemmas -/

lemma effectiveVolume_mem_unit (r : ℚ) (h0 : 0 ≤ r) (h1 : r ≤ 1) :
    0 ≤ effectiveVolume r ∧ effectiveVolume r ≤ 1 := by
  unfold effectiveVolume
  split <;> simp [h0, h1]

lemma smoothStep_mem_unit (s r : ℚ) (hs0 : 0 ≤ s) (hs1 : s ≤ 1)
    (h0 : 0 ≤ r) (h1 : r ≤ 1) :
    0 ≤ smoothStep s r ∧ smoothStep s r ≤ 1 := by
  obtain ⟨he0, he1⟩ := effectiveVolume_mem_unit r h0 h1
  unfold smoothStep smoothingFactor
  constructor <;> nlinarith

lemma foldl_smoothStep_mem_unit (rmss : List ℚ) (s : ℚ)
    (hs0 : 0 ≤ s) (hs1 : s ≤ 1) (h : ∀ r ∈ rmss, 0 ≤ r ∧ r ≤ 1) :
    0 ≤ rmss.foldl smoothStep s ∧ rmss.foldl smoothStep s ≤ 1 := by
  induction rmss generalizing s with
  | nil => exact ⟨hs0, hs1⟩
  | cons r rest ih =>
      have hr := h r (List.mem_cons_self _ _)
      have hstep := smoothStep_mem_unit s r hs0 hs1 hr.1 hr.2
      exact ih _ hstep.1 hstep.2 (fun x hx => h x (List.mem_cons_of_mem _ hx))

lemma meanSquare_le_one (data : List ℤ) (hdata : ∀ a ∈ data, 0 ≤ a ∧ a ≤ 255) :
    meanSquare data ≤ 1 := by
  unfold meanSquare
  rcases eq_or_ne data [] with rfl | hne
  · simp
  · have hlen : 0 < (data.length : ℚ) := by
      exact_mod_cast List.length_pos.mpr hne
    rw [div_le_one hlen]
    have hbound : ∀ x ∈ data.map (fun a : ℤ => ((a : ℚ) / 128 - 1) ^ 2), x ≤ 1 := by
      intro x hx
      obtain ⟨a, ha, rfl⟩ := List.mem_map.1 hx
      obtain ⟨ha0, ha1⟩ := hdata a ha
      rw [sq_le_one_iff_abs_le_one, abs_le]
      have h0 : (0 : ℚ) ≤ (a : ℚ) := by exact_mod_cast ha0
      have h1 : ((a : ℚ)) ≤ 255 := by exact_mod_cast ha1
      constructor <;> nlinarith
    calc (data.map fun a : ℤ => ((a : ℚ) / 128 - 1) ^ 2).sum
        ≤ (data.map fun a : ℤ => ((a : ℚ) / 128 - 1) ^ 2).length • (1 : ℚ) :=
          List.sum_le_card_nsmul _ _ hbound
      _ = (data.length : ℚ) := by simp

lemma rms_le_one (r : ℚ) (data : List ℤ) (hr0 : 0 ≤ r)
    (hrsq : r ^ 2 = meanSquare data) (hdata : ∀ a ∈ data, 0 ≤ a ∧ a ≤ 255) :
    r ≤ 1 := by
  have hms := meanSquare_le_one data hdata
  nlinarith

/-- C6 counterexample: an animation frame whose instantaneous RMS
loudness 0 is below the noise floor, entered with the (reachable, since
`runSmoothing [1] = 1/4`) smoothed volume 1/4 and a 100-pixel-high mouth
region, computes the nonzero displacement 105 and draws the displaced
jaw, not the unmodified static portrait. -/
theorem C6_counterexample :
    (0 : ℚ) < volumeThreshold ∧
      runSmoothing [1] = 1 / 4 ∧
      (animateMouthFrame (1 / 4) 0 100).mouthOpenness = 105 ∧
      (animateMouthFrame (1 / 4) 0 100).staticDrawn = false := by
  refine ⟨by norm_num [volumeThreshold], ?_, ?_, ?_⟩ <;>
    norm_num [runSmoothing, animateMouthFrame, smoothStep, effectiveVolume,
      smoothingFactor, volumeThreshold]

/-- C6 (amended): on a frame whose RMS loudness is at or below the noise
floor the effective volume is zero, so the smoothed volume decays by the
factor `1 - 0.25`; the displacement of such a frame is zero — and the
unmodified static portrait is drawn — when the smoothed volume entering
the frame is zero (in general a below-threshold frame can still draw a
displaced jaw from previously accumulated smoothed volume). -/
theorem C6_below_threshold (s r d : ℚ) (hr : r ≤ volumeThreshold) :
    (animateMouthFrame s r d).smoothed = s * (3 / 4) ∧
      (s = 0 → (animateMouthFrame s r d).mouthOpenness = 0 ∧
        (animateMouthFrame s r d).staticDrawn = true) := by
  have heff : effectiveVolume r = 0 := by
    unfold effectiveVolume
    rw [if_neg (not_lt.mpr hr)]
  constructor
  · show smoothStep s r = s * (3 / 4)
    unfold smoothStep smoothingFactor
    rw [heff]; ring
  · rintro rfl
    have hsm : smoothStep 0 r = 0 := by
      unfold smoothStep smoothingFactor
      rw [heff]; ring
    constructor
    · show smoothStep 0 r * (d * (7 / 10)) * 8 = 0
      rw [hsm]; ring
    · show (!decide ((1 : ℚ) < smoothStep 0 r * (d * (7 / 10)) * 8)) = true
      rw [hsm]
      norm_num

/-- Witness for C6 at the concrete frame `smoothed = 0`, `rms = 0`,
`dHeight = 100`. -/
theorem C6_below_threshold_witness :
    (animateMouthFrame 0 0 100).smoothed = 0 * (3 / 4) ∧
      ((0 : ℚ) = 0 → (animateMouthFrame 0 0 100).mouthOpenness = 0 ∧
        (animateMouthFrame 0 0 100).staticDrawn = true) :=
  C6_below_threshold 0 0 100 (by norm_num [volumeThreshold])

/-- C7 counterexample: the displacement is not capped at 0.7 of the
mouth region's canvas height.  A full-scale analyser window (all bytes 0,
normalized amplitude -1) has mean square exactly 1, so the RMS loudness 1
is reachable; one such frame from a fresh smoothed volume of 0 reaches
smoothed volume 1/4, and the next frame computes displacement 140 for a
100-pixel-high mouth region, exceeding the claimed cap `0.7 * 100 = 70`. -/
theorem C7_counterexample :
    meanSquare (List.replicate 256 0) = 1 ∧
      runSmoothing [1] = 1 / 4 ∧
      (animateMouthFrame 0 1 100).mouthOpenness = 140 ∧
      ¬((animateMouthFrame 0 1 100).mouthOpenness ≤ 100 * (7 / 10)) := by
  refine ⟨?_, ?_, ?_, ?_⟩ <;>
    norm_num [meanSquare, runSmoothing, animateMouthFrame, smoothStep,
      effectiveVolume, smoothingFactor, volumeThreshold,
      List.map_replicate, List.sum_replicate, smul_eq_mul]

/-- C7 (amended): for any smoothed volume reachable from the initial
value 0 through frames whose RMS values lie in the attainable range
`[0, 1]` (an RMS value whose square is the mean square of a window of
bytes in `0..255` always lies in that range), the frame's displacement is
bounded by `0.7 * 8 = 5.6` times the mouth region's canvas height — not
by the 0.7 fraction alone. -/
theorem C7_displacement_bound (rmss : List ℚ) (r dHeight : ℚ) (data : List ℤ)
    (hd : 0 ≤ dHeight)
    (hrange : ∀ x ∈ rmss, 0 ≤ x ∧ x ≤ 1)
    (hr0 : 0 ≤ r) (hrsq : r ^ 2 = meanSquare data)
    (hdata : ∀ a ∈ data, 0 ≤ a ∧ a ≤ 255) :
    (animateMouthFrame (runSmoothing rmss) r dHeight).mouthOpenness
      ≤ 28 / 5 * dHeight := by
  have hr1 : r ≤ 1 := rms_le_one r data hr0 hrsq hdata
  have hsm := foldl_smoothStep_mem_unit rmss 0 (le_refl 0) (by norm_num) hrange
  have hstep := smoothStep_mem_unit (rmss.foldl smoothStep 0) r hsm.1 hsm.2 hr0 hr1
  show smoothStep (runSmoothing rmss) r * (dHeight * (7 / 10)) * 8 ≤ 28 / 5 * dHeight
  unfold runSmoothing
  nlinarith [hstep.1, hstep.2, mul_nonneg (sub_nonneg.mpr hstep.2) hd]

/-- Witness for C7 at the concrete inputs `rmss = [1]`, `r = 1`,
`dHeight = 100`, `data` a window of 256 zero bytes. -/
theorem C7_displacement_bound_witness :
    (animateMouthFrame (runSmoothing [1]) 1 100).mouthOpenness ≤ 28 / 5 * 100 :=
  C7_displacement_bound [1] 1 100 (List.replicate 256 0)
    (by norm_num)
    (by intro x hx; simp only [List.mem_singleton] at hx; subst hx; norm_num)
    (by norm_num)
    (by norm_num [meanSquare, List.map_replicate, List.sum_replicate])
    (by intro a ha; simp only [List.mem_replicate] at ha; simp [ha.2])

/-- C8: when the post-noise-floor loudness is held at a constant value
`v` above the threshold, each smoothing step moves the smoothed value a
factor `1 - 0.25` closer to `v`: the distance shrinks exactly by 3/4
(hence strictly decreases unless already zero), a value equal to `v`
stays at `v`, and the smoothed value never overshoots — it stays
strictly between its old value and `v`. -/
theorem C8_smoothing_monotone_convergence (s v : ℚ) (hv : volumeThreshold < v) :
    |smoothStep s v - v| = 3 / 4 * |s - v| ∧
      (s ≠ v → |smoothStep s v - v| < |s - v|) ∧
      (s = v → smoothStep s v = v) ∧
      (s < v → s < smoothStep s v ∧ smoothStep s v < v) ∧
      (v < s → v < smoothStep s v ∧ smoothStep s v < s) := by
  have heff : effectiveVolume v = v := if_pos hv
  have hdiff : smoothStep s v - v = 3 / 4 * (s - v) := by
    unfold smoothStep smoothingFactor
    rw [heff]; ring
  have habs : |smoothStep s v - v| = 3 / 4 * |s - v| := by
    rw [hdiff, abs_mul, abs_of_pos (by norm_num : (0 : ℚ) < 3 / 4)]
  refine ⟨habs, ?_, ?_, ?_, ?_⟩
  · intro hne
    have hpos : 0 < |s - v| := abs_pos.mpr (sub_ne_zero.mpr hne)
    rw [habs]; linarith
  · intro hsv
    subst hsv
    linarith [hdiff]
  · intro h
    constructor <;> linarith [hdiff]
  · intro h
    constructor <;> linarith [hdiff]

/-- Witness for C8 at `s = 0`, `v = 1`. -/
theorem C8_smoothing_monotone_convergence_witness :
    |smoothStep 0 1 - 1| = 3 / 4 * |(0 : ℚ) - 1| ∧
      ((0 : ℚ) ≠ 1 → |smoothStep 0 1 - 1| < |(0 : ℚ) - 1|) ∧
      ((0 : ℚ) = 1 → smoothStep 0 1 = 1) ∧
      ((0 : ℚ) < 1 → 0 < smoothStep 0 1 ∧ smoothStep 0 1 < 1) ∧
      ((1 : ℚ) < 0 → 1 < smoothStep 0 1 ∧ smoothStep 0 1 < 0) :=
  C8_smoothing_monotone_convergence 0 1 (by norm_num [volumeThreshold])

/-! ### Animation-disabled sessions -/

/-- Forget the animation flag of a state, for comparing runs that differ
only in whether the animation loop is active. -/
def eraseAnim (s : ConvState) : ConvState :=
  { s with animationRunning := false }

lemma eraseAnim_onmessage (hc : Bool) (now : ℚ) (msg : ServerMessage) (s : ConvState) :
    eraseAnim (onmessage hc now msg s)
      = eraseAnim (onmessage false now msg (eraseAnim s)) := by
  obtain ⟨st, so, mi, sp, ms, ic, oc, ocs, ans, ar, nst, srcs, aas, ci, co, tr, ni⟩ := s
  rcases msg with ⟨ad, intr, it, ot, tc⟩
  cases ad <;> cases intr <;> cases it <;> cases ot <;> cases tc <;>
    cases ocs <;> cases ans <;>
    simp [onmessage, processAudioChunk, processInterrupted, processTurnComplete,
      eraseAnim]

lemma onmessage_false_animationRunning (now : ℚ) (msg : ServerMessage)
    (s : ConvState) (h : s.animationRunning = false) :
    (onmessage false now msg s).animationRunning = false := by
  obtain ⟨st, so, mi, sp, ms, ic, oc, ocs, ans, ar, nst, srcs, aas, ci, co, tr, ni⟩ := s
  rcases msg with ⟨ad, intr, it, ot, tc⟩
  subst h
  cases ad <;> cases intr <;> cases it <;> cases ot <;> cases tc <;>
    cases ocs <;> cases ans <;>
    simp [onmessage, processAudioChunk, processInterrupted, processTurnComplete]

lemma runMessages_false_animationRunning (msgs : List (ℚ × ServerMessage))
    (s : ConvState) (h : s.animationRunning = false) :
    (runMessages false s msgs).animationRunning = false := by
  induction msgs generalizing s with
  | nil => exact h
  | cons p rest ih =>
      obtain ⟨now, msg⟩ := p
      exact ih _ (onmessage_false_animationRunning now msg s h)

lemma runMessages_eraseAnim (msgs : List (ℚ × ServerMessage)) (s₁ s₂ : ConvState)
    (h : eraseAnim s₁ = eraseAnim s₂) :
    eraseAnim (runMessages false s₁ msgs) = eraseAnim (runMessages true s₂ msgs) := by
  induction msgs generalizing s₁ s₂ with
  | nil => exact h
  | cons p rest ih =>
      obtain ⟨now, msg⟩ := p
      apply ih
      calc eraseAnim (onmessage false now msg s₁)
          = eraseAnim (onmessage false now msg (eraseAnim s₁)) :=
            eraseAnim_onmessage false now msg s₁
        _ = eraseAnim (onmessage false now msg (eraseAnim s₂)) := by rw [h]
        _ = eraseAnim (onmessage true now msg s₂) :=
            (eraseAnim_onmessage true now msg s₂).symm

/-- C9: processing any message sequence with no mouth region (and the
animation loop initially off) never starts the animation loop, while the
playback schedule, the active set, the active-source count and the
transcript evolve exactly as they would with a mouth region present. -/
theorem C9_missing_region_only_disables_animation
    (msgs : List (ℚ × ServerMessage)) (s : ConvState)
    (h : s.animationRunning = false) :
    (runMessages false s msgs).animationRunning = false ∧
      (runMessages false s msgs).nextStartTime
        = (runMessages true s msgs).nextStartTime ∧
      (runMessages false s msgs).audioSources
        = (runMessages true s msgs).audioSources ∧
      (runMessages false s msgs).activeAudioSources
        = (runMessages true s msgs).activeAudioSources ∧
      (runMessages false s msgs).transcript
        = (runMessages true s msgs).transcript := by
  have hkey := runMessages_eraseAnim msgs s s rfl
  have h1 := congrArg ConvState.nextStartTime hkey
  have h2 := congrArg ConvState.audioSources hkey
  have h3 := congrArg ConvState.activeAudioSources hkey
  have h4 := congrArg ConvState.transcript hkey
  exact ⟨runMessages_false_animationRunning msgs s h, h1, h2, h3, h4⟩

/-- Witness for C9: one audio chunk followed by a turn-complete message,
processed from the freshly started state. -/
theorem C9_missing_region_only_disables_animation_witness :
    (runMessages false liveState
        [(0, ⟨some 1, false, none, none, false⟩),
          (1, ⟨none, false, none, some "ok", true⟩)]).animationRunning = false ∧
      (runMessages false liveState
          [(0, ⟨some 1, false, none, none, false⟩),
            (1, ⟨none, false, none, some "ok", true⟩)]).nextStartTime
        = (runMessages true liveState
            [(0, ⟨some 1, false, none, none, false⟩),
              (1, ⟨none, false, none, some "ok", true⟩)]).nextStartTime ∧
      (runMessages false liveState
          [(0, ⟨some 1, false, none, none, false⟩),
            (1, ⟨none, false, none, some "ok", true⟩)]).audioSources
        = (runMessages true liveState
            [(0, ⟨some 1, false, none, none, false⟩),
              (1, ⟨none, false, none, some "ok", true⟩)]).audioSources ∧
      (runMessages false liveState
          [(0, ⟨some 1, false, none, none, false⟩),
            (1, ⟨none, false, none, some "ok", true⟩)]).activeAudioSources
        = (runMessages true liveState
            [(0, ⟨some 1, false, none, none, false⟩),
              (1, ⟨none, false, none, some "ok", true⟩)]).activeAudioSources ∧
      (runMessages false liveState
          [(0, ⟨some 1, false, none, none, false⟩),
            (1, ⟨none, false, none, some "ok", true⟩)]).transcript
        = (runMessages true liveState
            [(0, ⟨some 1, false, none, none, false⟩),
              (1, ⟨none, false, none, some "ok", true⟩)]).transcript :=
  C9_missing_region_only_disables_animation
    [(0, ⟨some 1, false, none, none, false⟩),
      (1, ⟨none, false, none, some "ok", true⟩)] liveState rfl

/-- C10: a parsed mouth-localization response with any zero field is
discarded by the truthiness guard exactly as an unparsable response is:
no coordinates are stored, and a session run with the resulting absent
region (animation initially off) never starts the animator. -/
theorem C10_zero_coordinate_discarded (c : MouthCoordinates)
    (msgs : List (ℚ × ServerMessage)) (s : ConvState)
    (hfalsy : c.x = 0 ∨ c.y = 0 ∨ c.width = 0 ∨ c.height = 0)
    (hanim : s.animationRunning = false) :
    acceptMouthCoords (some c) = none ∧
      acceptMouthCoords (some c) = acceptMouthCoords none ∧
      (runMessages ((acceptMouthCoords (some c)).isSome) s msgs).animationRunning
        = false := by
  have hnone : acceptMouthCoords (some c) = none := by
    simp only [acceptMouthCoords]
    rw [if_neg]
    tauto
  refine ⟨hnone, by rw [hnone]; rfl, ?_⟩
  rw [hnone]
  exact runMessages_false_animationRunning msgs s hanim

/-- Witness for C10 at the concrete parsed box `{x := 0, y := 10,
width := 20, height := 5}` and a session of one audio chunk. -/
theorem C10_zero_coordinate_discarded_witness :
    acceptMouthCoords (some ⟨0, 10, 20, 5⟩) = none ∧
      acceptMouthCoords (some ⟨0, 10, 20, 5⟩) = acceptMouthCoords none ∧
      (runMessages ((acceptMouthCoords (some ⟨0, 10, 20, 5⟩)).isSome) liveState
          [(0, ⟨some 1, false, none, none, false⟩)]).animationRunning = false :=
  C10_zero_coordinate_discarded ⟨0, 10, 20, 5⟩
    [(0, ⟨some 1, false, none, none, false⟩)] liveState (Or.inl rfl) rfl

end Echoes
